import Mathlib

/-!
Verification development for the edh-telegram-bot game model: a shallow
embedding of the draft-game aggregate, the transactional commit protocol and
the dual-confirmation deletion protocol from
`src/telegram_bot/models/game.py` / `database.py`, together with the
conversation-level helpers the spec refers to, and theorems settling the
spec claims about them.
-/

set_option autoImplicit false

namespace EdhBot

/-- Possible game outcomes (`GameOutcome` enum in
`src/telegram_bot/models/game.py`; stored in the database as the strings
`"win"`, `"lose"`, `"draw"`, bijective with the enum). -/
inductive GameOutcome where
  | win
  | lose
  | draw
deriving DecidableEq, Repr

/-- Insertion-ordered association update, mirroring Python dict assignment
`d[k] = v`: an existing key keeps its position and receives the new value, a
new key is appended at the end. -/
def dictInsert {α : Type} : List (Int × α) → Int → α → List (Int × α)
  | [], k, v => [(k, v)]
  | (k', v') :: rest, k, v =>
    if k' = k then (k, v) :: rest else (k', v') :: dictInsert rest k v

/-- Removal of a key, mirroring Python `d.pop(k)` (removes the entry for `k`,
leaving everything else in order). -/
def dictPop {α : Type} : List (Int × α) → Int → List (Int × α)
  | [], _ => []
  | (k', v') :: rest, k => if k' = k then rest else (k', v') :: dictPop rest k

/-- Python `d.get(k)`; membership `k in d` is `(dictGet d k).isSome`. -/
def dictGet {α : Type} : List (Int × α) → Int → Option α
  | [], _ => none
  | (k', v') :: rest, k => if k' = k then some v' else dictGet rest k

/-- The in-progress draft game (`Game` dataclass in
`src/telegram_bot/models/game.py`).  Python dicts are modelled as
insertion-ordered association lists; `db_game` models the `_db_game` ORM
reference as the id of the `games` row it points at; timestamps are opaque
integers. -/
structure Game where
  pod_id : Int
  created_at : Int
  players : List (Int × String) := []
  outcomes : List (Int × GameOutcome) := []
  eliminations : List (Int × Int) := []
  finalized : Bool := false
  game_id : Option Nat := none
  deletion_reference : Option String := none
  db_game : Option Nat := none
deriving DecidableEq, Repr

/-- Embedding of `Game.add_player` (game.py lines 165-167): unconditionally inserts or
overwrites the participant's name snapshot. -/
def add_player (g : Game) (telegram_id : Int) (name : String) : Game :=
  { g with players := dictInsert g.players telegram_id name }

/-- The elimination loop inside `Game.record_outcome` (game.py lines
176-181), threading the partially mutated draft and stopping at the first
raised `ValueError`.  The count value of each entry is unused by the source. -/
def record_outcome_elims (telegram_id : Int) :
    Game → List (Int × Nat) → Game × Option String
  | g, [] => (g, none)
  | g, (eliminated_id, _count) :: rest =>
    if (dictGet g.players eliminated_id).isNone then
      (g, some s!"Eliminated player {eliminated_id} is not in this game")
    else
      record_outcome_elims telegram_id
        { g with eliminations := dictInsert g.eliminations eliminated_id telegram_id }
        rest

/-- Embedding of `Game.record_outcome` (game.py lines 169-181).  Returns the draft state
after the call together with the raised error message, if any (the Python
method mutates `self` and raises; the returned state is the observable draft
after the call, mutated or not). -/
def record_outcome (g : Game) (telegram_id : Int) (outcome : GameOutcome)
    (eliminations : List (Int × Nat)) : Game × Option String :=
  if (dictGet g.players telegram_id).isNone then
    (g, some s!"Player {telegram_id} is not in this game")
  else
    record_outcome_elims telegram_id
      { g with outcomes := dictInsert g.outcomes telegram_id outcome }
      eliminations

/-- The `reset_eliminations` branch of `handle_elimination_selection`
(`src/telegram_bot/conversations/add_custom_game.py` lines 121-138): collect
the keys whose eliminator is the current player, then pop each collected key
from the eliminations dict. -/
def reset_eliminations (eliminations : List (Int × Int))
    (current_player_id : Int) : List (Int × Int) :=
  let current :=
    (eliminations.filter (fun p => p.2 == current_player_id)).map Prod.fst
  current.foldl dictPop eliminations

/-! ## Deletion-reference encoding

`Game.finalize` (game.py lines 260-263) builds the deletion reference with
the third-party `hashids` library: `Hashids(salt=os.getenv("DATABASE_SALT"),
min_length=6).encode(self.game_id)`.  The library's code is not part of this
repository, so the encoding is modelled from the spec below. -/

/-- The 62-character encoding alphabet (lowercase, uppercase, digits). -/
def hashidsAlphabet : List Char :=
  "abcdefghijklmnopqrstuvwxyzABCDEFGHIJKLMNOPQRSTUVWXYZ1234567890".toList

/-- Salt-derived rotation of the alphabet. -/
def saltShift (salt : List Char) : Nat :=
  (salt.foldl (fun a c => a + c.toNat) 0) % 62

/-- Base-62 digits, least significant first, with an explicit fuel so the
recursion is structural (the fuel `n` always suffices for value `n`). -/
def toBase62Aux : Nat → Nat → List Nat
  | _, 0 => []
  | 0, _ => []
  | fuel + 1, n + 1 => ((n + 1) % 62) :: toBase62Aux fuel ((n + 1) / 62)

/-- Base-62 digits of `n`, least significant first. -/
def toBase62 (n : Nat) : List Nat :=
  toBase62Aux n n

/-- Encoding of one base-62 digit under a salt shift. -/
def digitChar (shift d : Nat) : Char :=
  hashidsAlphabet.getD ((d + shift) % 62) 'a'

/-- Decoding of one character back to its base-62 digit. -/
def charDigit (shift : Nat) (c : Char) : Nat :=
  (hashidsAlphabet.indexOf c + (62 - shift % 62)) % 62

/-- Modelled from the spec: the `hashids` encoder used by `Game.finalize` is
third-party code absent from `src/`; per the spec it is "a deterministic,
reversible short-string encoding of the new game's integer identity combined
with a secret salt" with minimum length 6.  The model writes the identity in
base 62, most significant digit first, over the salt-rotated alphabet, and
left-pads to length 6 with a guard character that is outside the alphabet. -/
def hashids_encode_chars (salt : List Char) (n : Nat) : List Char :=
  let shift := saltShift salt
  let body := ((toBase62 n).map (digitChar shift)).reverse
  List.replicate (6 - body.length) '*' ++ body

/-- The encoded reference as a string. -/
def hashids_encode (salt : List Char) (n : Nat) : String :=
  ⟨hashids_encode_chars salt n⟩

/-- Modelled from the spec: inverse of the encoding — strip the guard
padding, undo the salt rotation digit-wise, read off the base-62 value. -/
def hashids_decode_chars (salt : List Char) (x : List Char) : Nat :=
  Nat.ofDigits 62
    (((x.dropWhile (fun c => c == '*')).map (charDigit (saltShift salt))).reverse)

/-- Decoding of a reference string. -/
def hashids_decode (salt : List Char) (x : String) : Nat :=
  hashids_decode_chars salt x.data

/-! ## Database model

Rows of the tables declared in `src/telegram_bot/models/database.py`,
restricted to the columns the modelled code reads or writes. -/

/-- Row of `pods_players` (database.py lines 29-43). -/
structure PodPlayerRow where
  pods_player_id : Nat
  pod_id : Int
  telegram_id : Int
  name : String
deriving DecidableEq, Repr

/-- Row of `games` (database.py lines 46-66). -/
structure GameRow where
  game_id : Nat
  pod_id : Int
  created_at : Int
  deletion_reference : Option String
deriving DecidableEq, Repr

/-- Row of `game_results` (database.py lines 69-82); the `outcome` string
column holds exactly the enum's value, so it is modelled as the enum. -/
structure GameResultRow where
  game_id : Nat
  player_id : Nat
  outcome : GameOutcome
deriving DecidableEq, Repr

/-- Row of `eliminations` (database.py lines 85-100); the autoincrement
`elimination_id` is never read by the modelled code and is omitted. -/
structure EliminationRow where
  game_id : Nat
  eliminator_id : Nat
  eliminated_id : Nat
deriving DecidableEq, Repr

/-- Row of `game_deletion_requests` (database.py lines 103-125);
`request_id` and `created_at` are never read by the modelled code and are
omitted. -/
structure DeletionRequestRow where
  game_id : Nat
  requester_id : Nat
deriving DecidableEq, Repr

/-- The persistent store: committed table contents plus the autoincrement
counter for `games.game_id` (`last_game_id` is the last id handed out; the
next row gets `last_game_id + 1`, so ids start at 1 and are never 0). -/
structure DBState where
  pod_players : List PodPlayerRow := []
  games : List GameRow := []
  results : List GameResultRow := []
  eliminations : List EliminationRow := []
  deletion_requests : List DeletionRequestRow := []
  last_game_id : Nat := 0
deriving DecidableEq, Repr

/-- Embedding of `session.query(PodPlayer).filter_by(pod_id=..., telegram_id=...).first()`. -/
def findPodPlayer (db : DBState) (pod_id telegram_id : Int) : Option PodPlayerRow :=
  db.pod_players.find? (fun r => r.pod_id == pod_id && r.telegram_id == telegram_id)

/-! ## Commit protocol -/

/-- The player-validation loop of `GameManager.add_game` (game.py lines
462-471): every participant must have a `PodPlayer` row in the draft's pod. -/
def validate_players (db : DBState) (pod_id : Int) : List Int → Except String Unit
  | [] => .ok ()
  | telegram_id :: rest =>
    match findPodPlayer db pod_id telegram_id with
    | some _ => validate_players db pod_id rest
    | none => .error s!"Player {telegram_id} not found in pod {pod_id}"

/-- The elimination-validation loop of `GameManager.add_game` (game.py lines
473-482): both sides of every elimination must be draft participants. -/
def validate_eliminations (player_ids : List Int) :
    List (Int × Int) → Except String Unit
  | [] => .ok ()
  | (eliminated_id, eliminator_id) :: rest =>
    if eliminated_id ∈ player_ids then
      if eliminator_id ∈ player_ids then
        validate_eliminations player_ids rest
      else .error s!"Eliminator {eliminator_id} is not in this game"
    else .error s!"Eliminated player {eliminated_id} is not in this game"

/-- The result-row construction loop of `Game.finalize` (game.py lines
204-227): look up each outcome's pod player and build its result row. -/
def build_results (db : DBState) (pod_id : Int) (game_id : Nat) :
    List (Int × GameOutcome) → Except String (List GameResultRow)
  | [] => .ok []
  | (telegram_id, outcome) :: rest =>
    match findPodPlayer db pod_id telegram_id with
    | none => .error s!"Player {telegram_id} not found in pod {pod_id}"
    | some player =>
      (build_results db pod_id game_id rest).map
        (fun rs => ⟨game_id, player.pods_player_id, outcome⟩ :: rs)

/-- The elimination-row construction loop of `Game.finalize` (game.py lines
229-258). -/
def build_eliminations (db : DBState) (pod_id : Int) (game_id : Nat) :
    List (Int × Int) → Except String (List EliminationRow)
  | [] => .ok []
  | (eliminated_id, eliminator_id) :: rest =>
    match findPodPlayer db pod_id eliminated_id,
          findPodPlayer db pod_id eliminator_id with
    | some eliminated, some eliminator =>
      (build_eliminations db pod_id game_id rest).map
        (fun rs => ⟨game_id, eliminator.pods_player_id, eliminated.pods_player_id⟩ :: rs)
    | _, _ =>
      .error s!"Players not found - Eliminated: {eliminated_id}, Eliminator: {eliminator_id}"

/-- Embedding of `Game.finalize` (game.py lines 183-272).  `salt` stands for the
`DATABASE_SALT` environment value.  The no-outcomes check sits before the
`try` block and propagates unwrapped; every error raised inside the `try` is
re-raised as "Failed to finalize game: ...".  When `_db_game` already exists
the source reuses `self.game_id`, which is set together with `_db_game`, so
the model carries the row id in `db_game` and uses it throughout. -/
def finalize (salt : List Char) (g : Game) (db : DBState) :
    Except String (Game × DBState) :=
  if g.finalized then .ok (g, db)
  else if g.outcomes.isEmpty then
    .error "Cannot finalize game with no outcomes recorded"
  else
    let body : Except String (Game × DBState) := do
      let (g1, db1, gid) ←
        match g.db_game with
        | some gid => pure (g, db, gid)
        | none =>
          let gid := db.last_game_id + 1
          if gid = 0 then .error "Failed to generate game_id"
          else
            pure ({ g with db_game := some gid, game_id := some gid },
              { db with
                games := db.games ++ [⟨gid, g.pod_id, g.created_at, none⟩],
                last_game_id := gid }, gid)
      let rs ← build_results db1 g1.pod_id gid g1.outcomes
      let db2 := { db1 with results := db1.results ++ rs }
      let es ← build_eliminations db2 g1.pod_id gid g1.eliminations
      let db3 := { db2 with eliminations := db2.eliminations ++ es }
      let ref := hashids_encode salt gid
      let db4 := { db3 with
        games := db3.games.map (fun r =>
          if r.game_id == gid then { r with deletion_reference := some ref } else r) }
      pure ({ g1 with deletion_reference := some ref, finalized := true }, db4)
    match body with
    | .ok x => .ok x
    | .error m => .error ("Failed to finalize game: " ++ m)

/-- Embedding of `GameManager.add_game` (game.py lines 457-494): the validations and
`finalize` run inside one savepoint; any raise surfaces as
"Failed to add game: ...". -/
def add_game (salt : List Char) (g : Game) (db : DBState) :
    Except String (Game × DBState) :=
  let body : Except String (Game × DBState) := do
    let _ ← validate_players db g.pod_id (g.players.map Prod.fst)
    let _ ← validate_eliminations (g.players.map Prod.fst) g.eliminations
    finalize salt g db
  match body with
  | .ok x => .ok x
  | .error m => .error ("Failed to add game: " ++ m)

/-- The database state observable after `add_game` returns or raises: the
committed state on success, the rolled-back original on any failure (the
`except` clause at game.py lines 491-494 rolls the whole transaction back). -/
def add_game_observable (salt : List Char) (g : Game) (db : DBState) : DBState :=
  match add_game salt g db with
  | .ok (_, db') => db'
  | .error _ => db

/-! ## Deletion protocol -/

/-- The flush of `session.delete(db_game)` (game.py lines 762-763).  The
`Game` ORM relationships to its result, elimination and deletion-request
rows declare no delete cascade (database.py lines 60-66), so at flush the
ORM must blank out each dependent row's foreign key: `game_results.game_id`
is part of that table's primary key and the other two `game_id` columns are
non-nullable, so the flush fails whenever any dependent row exists; only an
isolated game row can actually be deleted. -/
def orm_delete_game (db : DBState) (game_id : Nat) : Except String DBState :=
  if db.results.any (fun r => r.game_id == game_id)
      || db.eliminations.any (fun r => r.game_id == game_id)
      || db.deletion_requests.any (fun r => r.game_id == game_id) then
    .error "Dependency rule tried to blank-out primary key column"
  else
    .ok { db with games := db.games.filter (fun r => r.game_id != game_id) }

/-- Embedding of `GameManager.request_game_deletion` (game.py lines 720-772).  Returns the
`status` field of the returned dict together with the database state
observable afterwards (committed on success paths, rolled back to the entry
state when the transaction fails). -/
def request_game_deletion (db : DBState) (deletion_ref : String)
    (requester_id : Int) : String × DBState :=
  match db.games.find? (fun r => r.deletion_reference == some deletion_ref) with
  | none => ("not_found", db)
  | some game =>
    match findPodPlayer db game.pod_id requester_id with
    | none => ("not_in_game", db)
    | some pod_player =>
      if db.deletion_requests.any (fun q =>
          q.game_id == game.game_id && q.requester_id == pod_player.pods_player_id) then
        ("already_requested", db)
      else
        let db1 := { db with deletion_requests :=
          db.deletion_requests ++ [⟨game.game_id, pod_player.pods_player_id⟩] }
        let requesters :=
          (((db1.deletion_requests.filter (fun q => q.game_id == game.game_id)).map
            (fun q => q.requester_id)).eraseDups).length
        if requesters ≥ 2 then
          match orm_delete_game db1 game.game_id with
          | .ok db2 => ("deleted", db2)
          | .error _ => ("error", db)
        else ("pending", db1)

/-! ## Statistics derivation -/

/-- Embedding of the `PlayerStats` dataclass (game.py lines 47-57). -/
structure PlayerStats where
  telegram_id : Int
  name : String
  wins : Nat := 0
  losses : Nat := 0
  draws : Nat := 0
  eliminations : Nat := 0
  games_played : Nat := 0
deriving DecidableEq, Repr

/-- Embedding of `PlayerStats.update_from_game` (game.py lines 59-68). -/
def update_from_game (s : PlayerStats) (outcome : GameOutcome)
    (eliminations : Nat) : PlayerStats :=
  let s := { s with games_played := s.games_played + 1,
                    eliminations := s.eliminations + eliminations }
  match outcome with
  | .win => { s with wins := s.wins + 1 }
  | .lose => { s with losses := s.losses + 1 }
  | .draw => { s with draws := s.draws + 1 }

/-- Whether a row's game passes the optional `created_at >= since_date` join
filter of `get_player_stats` (an inner join: a missing game row drops the
result). -/
def game_since (db : DBState) (game_id : Nat) (since_date : Option Int) : Bool :=
  match since_date with
  | none => true
  | some d =>
    (db.games.find? (fun r => r.game_id == game_id)).any (fun r => d ≤ r.created_at)

/-- The elimination-count subquery of `GameManager.get_player_stats`
(game.py lines 597-606). -/
def elim_count (db : DBState) (game_id : Nat) (pods_player_id : Nat)
    (since_date : Option Int) : Nat :=
  (db.eliminations.filter (fun e =>
    e.game_id == game_id && e.eliminator_id == pods_player_id
      && game_since db e.game_id since_date)).length

/-- Embedding of `GameManager.get_player_stats` (game.py lines 566-614): find the pod
player, scan their result rows (optionally date-filtered), and fold
`update_from_game` over them starting from zeroed stats. -/
def get_player_stats (db : DBState) (telegram_id pod_id : Int)
    (since_date : Option Int) : Option PlayerStats :=
  match findPodPlayer db pod_id telegram_id with
  | none => none
  | some player =>
    let rows := db.results.filter (fun r =>
      r.player_id == player.pods_player_id && game_since db r.game_id since_date)
    some (rows.foldl
      (fun s r =>
        update_from_game s r.outcome
          (elim_count db r.game_id player.pods_player_id since_date))
      { telegram_id := telegram_id, name := player.name })

/-! ## Spec-side predicates and concrete fixtures -/

/-- Spec-side predicate, written from the spec's words for the eligibility
claim: every added participant has a recorded outcome. -/
def every_participant_has_outcome (g : Game) : Bool :=
  g.players.all (fun p => (dictGet g.outcomes p.1).isSome)

/-- The error surfaced by `GameManager.add_game` when `Game.finalize`
rejects a draft as not committable (the `not self.outcomes` check at game.py
lines 188-189, wrapped by the `except` clause of `add_game`). -/
def not_committable_error : String :=
  "Failed to add game: Cannot finalize game with no outcomes recorded"

/-- Success/failure of an `Except` computation (`Except.isOk`). -/
def exceptOk {ε α : Type} : Except ε α → Bool
  | .ok _ => true
  | .error _ => false

/-- Fixture: pod 1 whose directory holds pod players 10, 11, 12 for telegram
ids 1, 2, 3. -/
def directory_db : DBState :=
  { pod_players := [⟨10, 1, 1, "A"⟩, ⟨11, 1, 2, "B"⟩, ⟨12, 1, 3, "C"⟩] }

/-- Fixture: a complete two-player draft in pod 1 (both outcomes recorded,
player 1 eliminated player 2). -/
def complete_draft : Game :=
  { pod_id := 1, created_at := 0,
    players := [(1, "A"), (2, "B")],
    outcomes := [(1, .win), (2, .lose)],
    eliminations := [(2, 1)] }

/-- Fixture: the same two-player draft with an outcome recorded for player 1
only. -/
def incomplete_outcomes_draft : Game :=
  { pod_id := 1, created_at := 0,
    players := [(1, "A"), (2, "B")],
    outcomes := [(1, .win)] }

/-- Fixture: a draft whose only participant (telegram id 9) has no
`PodPlayer` row in `directory_db`, and which eliminates a non-participant. -/
def missing_player_draft : Game :=
  { pod_id := 1, created_at := 0,
    players := [(9, "Z")],
    outcomes := [(9, .win)],
    eliminations := [(4, 9)] }

/-- Fixture: a committed game (id 1, reference "abc123") in pod 1 whose two
participants are pod players 10 and 11 (telegram ids 1 and 2); pod player 12
(telegram id 3) belongs to the pod but took no part in the game. -/
def deletion_scenario_db : DBState :=
  { pod_players := [⟨10, 1, 1, "A"⟩, ⟨11, 1, 2, "B"⟩, ⟨12, 1, 3, "C"⟩],
    games := [⟨1, 1, 0, some "abc123"⟩],
    results := [⟨1, 10, .win⟩, ⟨1, 11, .lose⟩],
    eliminations := [⟨1, 10, 11⟩],
    last_game_id := 1 }

/-- Fixture: a draft already marked finalized. -/
def finalized_draft : Game :=
  { pod_id := 1, created_at := 0,
    players := [(1, "A")],
    outcomes := [(1, .win)],
    finalized := true,
    game_id := some 1,
    deletion_reference := some "abc123",
    db_game := some 1 }

/-! ## Dictionary lemmas -/

theorem dictGet_dictInsert_self {α : Type} (l : List (Int × α)) (k : Int) (v : α) :
    dictGet (dictInsert l k v) k = some v := by
  induction l with
  | nil => simp [dictInsert, dictGet]
  | cons p rest ih =>
    obtain ⟨k', v'⟩ := p
    by_cases h : k' = k
    · simp [dictInsert, dictGet, h]
    · simp [dictInsert, dictGet, h, ih]

theorem dictGet_dictInsert_ne {α : Type} (l : List (Int × α)) (k : Int) (v : α)
    (k'' : Int) (h : k'' ≠ k) : dictGet (dictInsert l k v) k'' = dictGet l k'' := by
  have hne : ¬(k = k'') := fun hh => h hh.symm
  induction l with
  | nil => simp [dictInsert, dictGet, hne]
  | cons p rest ih =>
    obtain ⟨k', v'⟩ := p
    by_cases h' : k' = k
    · subst h'
      simp [dictInsert, dictGet, hne]
    · simp [dictInsert, dictGet, h', ih]

theorem dictPop_cons_ne {α : Type} (a k : Int) (b : α) (l : List (Int × α))
    (h : a ≠ k) : dictPop ((a, b) :: l) k = (a, b) :: dictPop l k := by
  simp [dictPop, h]

theorem dictPop_cons_self {α : Type} (a : Int) (b : α) (l : List (Int × α)) :
    dictPop ((a, b) :: l) a = l := by
  simp [dictPop]

theorem foldl_dictPop_cons {α : Type} (ks : List Int) (a : Int) (b : α)
    (l : List (Int × α)) (h : ∀ k ∈ ks, a ≠ k) :
    ks.foldl dictPop ((a, b) :: l) = (a, b) :: ks.foldl dictPop l := by
  induction ks generalizing l with
  | nil => rfl
  | cons k ks ih =>
    simp only [List.foldl_cons]
    rw [dictPop_cons_ne a k b l (h k (by simp))]
    exact ih _ (fun k' hk' => h k' (by simp [hk']))

/-! ## Claim C7: recording an outcome for an unknown identity -/

/-- C7: for every draft and every identity absent from its participants map,
`record_outcome` fails with the unknown-participant `ValueError` and the
draft observable after the failed call is unchanged (in particular the
outcomes map keeps its size and contents). -/
theorem record_outcome_unknown_participant (g : Game) (telegram_id : Int)
    (outcome : GameOutcome) (eliminations : List (Int × Nat))
    (h : dictGet g.players telegram_id = none) :
    record_outcome g telegram_id outcome eliminations
      = (g, some s!"Player {telegram_id} is not in this game") := by
  simp [record_outcome, h]

/-- Witness for C7 at a concrete empty draft. -/
theorem record_outcome_unknown_participant_witness :
    record_outcome { pod_id := 1, created_at := 0 } 5 .win []
      = ({ pod_id := 1, created_at := 0 }, some "Player 5 is not in this game") :=
  record_outcome_unknown_participant { pod_id := 1, created_at := 0 } 5 .win [] rfl

/-! ## Claim C8: resetting one eliminator's eliminations -/

/-- C8: on any draft eliminations dict (distinct keys, as Python dicts
guarantee), the reset affordance removes exactly the entries whose
eliminator is the current player and leaves every other entry unchanged, in
order. -/
theorem reset_eliminations_removes_exactly (l : List (Int × Int)) (x : Int)
    (h : (l.map Prod.fst).Nodup) :
    reset_eliminations l x = l.filter (fun p => p.2 != x) := by
  induction l with
  | nil => rfl
  | cons p rest ih =>
    obtain ⟨a, b⟩ := p
    simp only [List.map_cons, List.nodup_cons] at h
    obtain ⟨ha, hrest⟩ := h
    by_cases hbx : b = x
    · subst hbx
      simp only [reset_eliminations, List.filter_cons, beq_self_eq_true, if_pos,
        List.map_cons, List.foldl_cons, dictPop_cons_self, bne_self_eq_false,
        Bool.false_eq_true, ite_true]
      exact ih hrest
    · have hb : (b == x) = false := beq_eq_false_iff_ne.mpr hbx
      have hb' : (b != x) = true := by simp [bne, hb]
      have hsub : ∀ k ∈ (List.filter (fun p => p.2 == x) rest).map Prod.fst,
          a ≠ k := by
        intro k hk
        intro hak
        obtain ⟨q, hq, hq2⟩ := List.mem_map.mp hk
        exact ha (by
          rw [hak]
          exact List.mem_map.mpr ⟨q, (List.mem_filter.mp hq).1, hq2⟩)
      simp only [reset_eliminations, List.filter_cons, hb, hb',
        Bool.false_eq_true, ite_false, ite_true]
      rw [foldl_dictPop_cons _ a b rest hsub]
      exact congrArg ((a, b) :: ·) (ih hrest)

/-- Witness for C8 at a concrete eliminations dict. -/
theorem reset_eliminations_removes_exactly_witness :
    reset_eliminations [(2, 1), (3, 1), (4, 5)] 1
      = List.filter (fun p => p.2 != 1) [(2, 1), (3, 1), (4, 5)] :=
  reset_eliminations_removes_exactly [(2, 1), (3, 1), (4, 5)] 1 (by decide)

/-! ## Claim C9: adding a player to a committed draft -/

/-- C9 counterexample: `Game.add_player` performs no finalized-state check —
on a draft already marked finalized it succeeds and modifies the
participants map, where the claim says it fails with an invalid-state error
and leaves the map unchanged. -/
theorem add_player_finalized_counterexample :
    finalized_draft.finalized = true ∧
    (add_player finalized_draft 7 "X").players = [(1, "A"), (7, "X")] := by
  exact ⟨rfl, rfl⟩

/-- C9 amended: `add_player` inserts or overwrites the participant's name
snapshot even on a committed (finalized) draft; no invalid-state failure
exists, other participants' entries are untouched and the finalized flag is
preserved. -/
theorem add_player_no_finalized_check (g : Game) (telegram_id : Int)
    (name : String) (hfin : g.finalized = true) (k : Int)
    (hk : k ≠ telegram_id) :
    dictGet (add_player g telegram_id name).players telegram_id = some name ∧
    dictGet (add_player g telegram_id name).players k = dictGet g.players k ∧
    (add_player g telegram_id name).finalized = true := by
  refine ⟨?_, ?_, ?_⟩
  · simp [add_player, dictGet_dictInsert_self]
  · simp [add_player, dictGet_dictInsert_ne _ _ _ _ hk]
  · simpa [add_player] using hfin

/-- Witness for the amended C9 at the finalized fixture draft. -/
theorem add_player_no_finalized_check_witness :
    dictGet (add_player finalized_draft 7 "X").players 7 = some "X" ∧
    dictGet (add_player finalized_draft 7 "X").players 1
      = dictGet finalized_draft.players 1 ∧
    (add_player finalized_draft 7 "X").finalized = true :=
  add_player_no_finalized_check finalized_draft 7 "X" rfl 1 (by decide)

/-! ## Validation lemmas for the commit protocol -/

theorem except_bind_error {ε α β : Type} (m : ε) (f : α → Except ε β) :
    (Except.error m >>= f) = Except.error m := rfl

theorem except_bind_ok {ε α β : Type} (a : α) (f : α → Except ε β) :
    (Except.ok a >>= f) = f a := rfl

theorem validate_players_error (db : DBState) (pod_id : Int) (ids : List Int)
    (h : ∃ tid ∈ ids, findPodPlayer db pod_id tid = none) :
    ∃ m, validate_players db pod_id ids = .error m := by
  induction ids with
  | nil => simp at h
  | cons t rest ih =>
    cases hf : findPodPlayer db pod_id t with
    | none =>
      exact ⟨s!"Player {t} not found in pod {pod_id}",
        by simp [validate_players, hf]⟩
    | some p =>
      obtain ⟨tid, htid, hnone⟩ := h
      rcases List.mem_cons.mp htid with rfl | hmem
      · rw [hf] at hnone
        cases hnone
      · obtain ⟨m, hm⟩ := ih ⟨tid, hmem, hnone⟩
        exact ⟨m, by simp [validate_players, hf, hm]⟩

theorem validate_players_ok (db : DBState) (pod_id : Int) (ids : List Int)
    (h : ∀ tid ∈ ids, (findPodPlayer db pod_id tid).isSome = true) :
    validate_players db pod_id ids = .ok () := by
  induction ids with
  | nil => rfl
  | cons t rest ih =>
    have ht := h t (by simp)
    cases hf : findPodPlayer db pod_id t with
    | none =>
      rw [hf] at ht
      cases ht
    | some p =>
      simp [validate_players, hf, ih (fun tid htid => h tid (by simp [htid]))]

theorem validate_eliminations_error (ids : List Int) (elims : List (Int × Int))
    (h : ∃ p ∈ elims, p.1 ∉ ids ∨ p.2 ∉ ids) :
    ∃ m, validate_eliminations ids elims = .error m := by
  induction elims with
  | nil => simp at h
  | cons q rest ih =>
    obtain ⟨ed, er⟩ := q
    by_cases h1 : ed ∈ ids
    · by_cases h2 : er ∈ ids
      · obtain ⟨p, hp, hbad⟩ := h
        rcases List.mem_cons.mp hp with rfl | hmem
        · rcases hbad with hb | hb
          · exact absurd h1 hb
          · exact absurd h2 hb
        · obtain ⟨m, hm⟩ := ih ⟨p, hmem, hbad⟩
          exact ⟨m, by simp [validate_eliminations, h1, h2, hm]⟩
      · exact ⟨s!"Eliminator {er} is not in this game",
          by simp [validate_eliminations, h1, h2]⟩
    · exact ⟨s!"Eliminated player {ed} is not in this game",
        by simp [validate_eliminations, h1]⟩

theorem validate_eliminations_ok (ids : List Int) (elims : List (Int × Int))
    (h : ∀ p ∈ elims, p.1 ∈ ids ∧ p.2 ∈ ids) :
    validate_eliminations ids elims = .ok () := by
  induction elims with
  | nil => rfl
  | cons q rest ih =>
    obtain ⟨ed, er⟩ := q
    obtain ⟨h1, h2⟩ := h (ed, er) (by simp)
    simp [validate_eliminations, h1, h2, ih (fun p hp => h p (by simp [hp]))]

/-! ## Claim C1: commit is all-or-nothing -/

/-- C1: whenever a draft is invalid — some participant has no `PodPlayer`
row in the draft's pod, or some elimination references a non-participant —
`add_game` raises, and the database observable afterwards is exactly the
database before the call: no game row, no result row and no elimination row
is persisted. -/
theorem add_game_rolls_back_on_failure (salt : List Char) (g : Game)
    (db : DBState)
    (h : (∃ tid ∈ g.players.map Prod.fst, findPodPlayer db g.pod_id tid = none)
       ∨ (∃ p ∈ g.eliminations,
            p.1 ∉ g.players.map Prod.fst ∨ p.2 ∉ g.players.map Prod.fst)) :
    (∃ m, add_game salt g db = .error m) ∧
    add_game_observable salt g db = db := by
  have herr : ∃ m, add_game salt g db = .error m := by
    rcases h with hmiss | hbad
    · obtain ⟨m, hm⟩ := validate_players_error db g.pod_id _ hmiss
      refine ⟨"Failed to add game: " ++ m, ?_⟩
      simp [add_game, hm, except_bind_error]
    · cases hvp : validate_players db g.pod_id (g.players.map Prod.fst) with
      | error m =>
        refine ⟨"Failed to add game: " ++ m, ?_⟩
        simp [add_game, hvp, except_bind_error]
      | ok u =>
        obtain ⟨m, hm⟩ := validate_eliminations_error _ _ hbad
        refine ⟨"Failed to add game: " ++ m, ?_⟩
        simp [add_game, hvp, hm, except_bind_ok, except_bind_error]
  obtain ⟨m, hm⟩ := herr
  exact ⟨⟨m, hm⟩, by simp [add_game_observable, hm]⟩

/-- Witness for C1: committing a draft whose participant 9 has no row in the
pod directory fails and leaves the database untouched. -/
theorem add_game_rolls_back_on_failure_witness :
    (∃ m, add_game [] missing_player_draft directory_db = .error m) ∧
    add_game_observable [] missing_player_draft directory_db = directory_db :=
  add_game_rolls_back_on_failure [] missing_player_draft directory_db
    (Or.inl ⟨9, by decide, by decide⟩)

/-! ## Success lemmas for the commit pipeline -/

theorem build_results_ok (db : DBState) (pod_id : Int) (game_id : Nat)
    (l : List (Int × GameOutcome))
    (h : ∀ p ∈ l, (findPodPlayer db pod_id p.1).isSome = true) :
    ∃ rs, build_results db pod_id game_id l = .ok rs := by
  induction l with
  | nil => exact ⟨[], rfl⟩
  | cons q rest ih =>
    obtain ⟨tid, o⟩ := q
    have ht := h (tid, o) (by simp)
    cases hf : findPodPlayer db pod_id tid with
    | none =>
      rw [hf] at ht
      cases ht
    | some p =>
      obtain ⟨rs, hrs⟩ := ih (fun p hp => h p (by simp [hp]))
      exact ⟨⟨game_id, p.pods_player_id, o⟩ :: rs,
        by simp [build_results, hf, hrs, Except.map]⟩

theorem build_eliminations_ok (db : DBState) (pod_id : Int) (game_id : Nat)
    (l : List (Int × Int))
    (h : ∀ p ∈ l, (findPodPlayer db pod_id p.1).isSome = true ∧
        (findPodPlayer db pod_id p.2).isSome = true) :
    ∃ es, build_eliminations db pod_id game_id l = .ok es := by
  induction l with
  | nil => exact ⟨[], rfl⟩
  | cons q rest ih =>
    obtain ⟨ed, er⟩ := q
    obtain ⟨h1, h2⟩ := h (ed, er) (by simp)
    cases hf1 : findPodPlayer db pod_id ed with
    | none =>
      rw [hf1] at h1
      cases h1
    | some eliminated =>
      cases hf2 : findPodPlayer db pod_id er with
      | none =>
        rw [hf2] at h2
        cases h2
      | some eliminator =>
        obtain ⟨es, hes⟩ := ih (fun p hp => h p (by simp [hp]))
        exact ⟨⟨game_id, eliminator.pods_player_id, eliminated.pods_player_id⟩ :: es,
          by simp [build_eliminations, hf1, hf2, hes, Except.map]⟩

theorem exceptOk_exists {ε α : Type} (e : Except ε α) (h : exceptOk e = true) :
    ∃ x, e = .ok x := by
  cases e with
  | ok a => exact ⟨a, rfl⟩
  | error m => cases h

theorem finalize_ok (salt : List Char) (g : Game) (db : DBState)
    (hfin : g.finalized = false) (hne : g.outcomes ≠ [])
    (hpo : ∀ p ∈ g.outcomes, (findPodPlayer db g.pod_id p.1).isSome = true)
    (hpe : ∀ p ∈ g.eliminations, (findPodPlayer db g.pod_id p.1).isSome = true ∧
        (findPodPlayer db g.pod_id p.2).isSome = true) :
    ∃ x, finalize salt g db = .ok x := by
  apply exceptOk_exists
  have hie : g.outcomes.isEmpty = false := by
    cases h' : g.outcomes with
    | nil => exact absurd h' hne
    | cons a l => rfl
  cases hdbg : g.db_game with
  | some gid =>
    obtain ⟨rs, hrs⟩ := build_results_ok db g.pod_id gid g.outcomes hpo
    obtain ⟨es, hes⟩ :=
      build_eliminations_ok { db with results := db.results ++ rs }
        g.pod_id gid g.eliminations hpe
    simp [finalize, hfin, hie, hdbg, hrs, hes, except_bind_ok, exceptOk]
  | none =>
    obtain ⟨rs, hrs⟩ :=
      build_results_ok
        { db with games := db.games ++ [⟨db.last_game_id + 1, g.pod_id, g.created_at, none⟩],
                  last_game_id := db.last_game_id + 1 }
        g.pod_id (db.last_game_id + 1) g.outcomes hpo
    obtain ⟨es, hes⟩ :=
      build_eliminations_ok
        { db with games := db.games ++ [⟨db.last_game_id + 1, g.pod_id, g.created_at, none⟩],
                  last_game_id := db.last_game_id + 1,
                  results := db.results ++ rs }
        g.pod_id (db.last_game_id + 1) g.eliminations hpe
    simp [finalize, hfin, hie, hdbg, hrs, hes, except_bind_ok, Nat.succ_ne_zero,
      exceptOk]

theorem add_game_ok (salt : List Char) (g : Game) (db : DBState)
    (hfin : g.finalized = false) (hne : g.outcomes ≠ [])
    (hp : ∀ tid ∈ g.players.map Prod.fst, (findPodPlayer db g.pod_id tid).isSome = true)
    (ho : ∀ p ∈ g.outcomes, p.1 ∈ g.players.map Prod.fst)
    (he : ∀ p ∈ g.eliminations,
        p.1 ∈ g.players.map Prod.fst ∧ p.2 ∈ g.players.map Prod.fst) :
    ∃ x, add_game salt g db = .ok x := by
  apply exceptOk_exists
  have hpo : ∀ p ∈ g.outcomes, (findPodPlayer db g.pod_id p.1).isSome = true :=
    fun p hp' => hp _ (ho p hp')
  have hpe : ∀ p ∈ g.eliminations, (findPodPlayer db g.pod_id p.1).isSome = true ∧
      (findPodPlayer db g.pod_id p.2).isSome = true :=
    fun p hp' => ⟨hp _ (he p hp').1, hp _ (he p hp').2⟩
  obtain ⟨x, hx⟩ := finalize_ok salt g db hfin hne hpo hpe
  simp [add_game, validate_players_ok db g.pod_id _ hp,
    validate_eliminations_ok _ _ he, except_bind_ok, hx, exceptOk]

/-! ## Claim C2: commit eligibility -/

/-- C2 counterexample: the draft with participants 1 and 2 but an outcome
recorded only for participant 1 commits successfully — `add_game` does not
fail with the not-committable error even though not every added participant
has a recorded outcome, refuting the claimed iff. -/
theorem commit_eligibility_counterexample :
    exceptOk (add_game [] incomplete_outcomes_draft directory_db) = true ∧
    every_participant_has_outcome incomplete_outcomes_draft = false := by
  exact ⟨rfl, rfl⟩

/-- C2 amended: for a not-yet-finalized draft whose participants all have
directory rows, whose outcome keys are participants and whose eliminations
reference participants (all guaranteed by the builder calls), commit fails
with the not-committable error iff the outcomes map is empty — participants
without a recorded outcome do not block commit, and no minimum participant
count is enforced at commit time. -/
theorem add_game_not_committable_iff (salt : List Char) (g : Game)
    (db : DBState) (hfin : g.finalized = false)
    (hp : ∀ tid ∈ g.players.map Prod.fst, (findPodPlayer db g.pod_id tid).isSome = true)
    (ho : ∀ p ∈ g.outcomes, p.1 ∈ g.players.map Prod.fst)
    (he : ∀ p ∈ g.eliminations,
        p.1 ∈ g.players.map Prod.fst ∧ p.2 ∈ g.players.map Prod.fst) :
    (add_game salt g db = .error not_committable_error) ↔ g.outcomes = [] := by
  constructor
  · intro herr
    by_contra hne
    obtain ⟨x, hx⟩ := add_game_ok salt g db hfin hne hp ho he
    rw [hx] at herr
    cases herr
  · intro hempty
    have hvp := validate_players_ok db g.pod_id _ hp
    have hve := validate_eliminations_ok _ _ he
    have hfe : finalize salt g db = .error "Cannot finalize game with no outcomes recorded" := by
      simp [finalize, hfin, hempty]
    simp only [add_game, hvp, hve, except_bind_ok, hfe]
    rfl

/-- Witness for the amended C2 at the complete two-player fixture. -/
theorem add_game_not_committable_iff_witness :
    (add_game [] complete_draft directory_db = .error not_committable_error)
      ↔ complete_draft.outcomes = [] :=
  add_game_not_committable_iff [] complete_draft directory_db rfl
    (by decide) (by decide) (by decide)

/-! ## Claims C3-C5: deletion protocol -/

theorem orm_delete_game_error_of_request (db : DBState) (gid : Nat)
    (h : db.deletion_requests.any (fun r => r.game_id == gid) = true) :
    orm_delete_game db gid
      = .error "Dependency rule tried to blank-out primary key column" := by
  unfold orm_delete_game
  simp [h]

/-- C3 evaluation at the failing input: in `deletion_scenario_db`, pod
player 12 (telegram id 3) has no result row in the committed game — they
were not one of its participants — yet `request_game_deletion` accepts
their request and returns "pending" with a recorded request row, because the
code checks only pod membership; the claim says such a requester gets
"not_in_game" and nothing is recorded. -/
theorem request_deletion_non_participant_eval :
    deletion_scenario_db.results.all (fun r => r.player_id != 12) = true ∧
    (request_game_deletion deletion_scenario_db "abc123" 3).1 = "pending" ∧
    (request_game_deletion deletion_scenario_db "abc123" 3).2.deletion_requests
      = [⟨1, 12⟩] := by
  exact ⟨rfl, rfl, rfl⟩

/-- C4: `request_game_deletion` can never return "deleted".  At the quorum
point the just-recorded deletion-request row is itself a dependent row of
the game, so the cascade-less ORM delete always fails at flush and the call
returns "error" after rolling back — the claimed "deleted on the 2nd
distinct requester" outcome is unreachable. -/
theorem request_deletion_never_deleted (db : DBState) (deletion_ref : String)
    (requester_id : Int) :
    ((request_game_deletion db deletion_ref requester_id).1 == "deleted")
      = false := by
  simp only [request_game_deletion]
  split
  · rfl
  · split
    · rfl
    · split
      · rfl
      · split
        · rw [orm_delete_game_error_of_request]
          · rfl
          · simp
        · rfl

/-- C5 evaluation at the failing input: participants 1 and 2 each request
deletion once.  The first call returns "pending"; the quorum-reaching second
call returns "error", the database rolls back to its state after the first
call, the game is still found by its reference, and its result and
elimination rows are all still present — nothing is purged, where the claim
says the game and all derived rows are gone and the lookup is not-found. -/
theorem deletion_quorum_eval :
    (request_game_deletion deletion_scenario_db "abc123" 1).1 = "pending" ∧
    (request_game_deletion
        (request_game_deletion deletion_scenario_db "abc123" 1).2 "abc123" 2).1
      = "error" ∧
    (request_game_deletion
        (request_game_deletion deletion_scenario_db "abc123" 1).2 "abc123" 2).2
      = (request_game_deletion deletion_scenario_db "abc123" 1).2 ∧
    ((request_game_deletion
        (request_game_deletion deletion_scenario_db "abc123" 1).2 "abc123" 2).2.games.find?
        (fun r => r.deletion_reference == some "abc123")).isSome = true ∧
    (request_game_deletion
        (request_game_deletion deletion_scenario_db "abc123" 1).2 "abc123" 2).2.results
      = deletion_scenario_db.results ∧
    (request_game_deletion
        (request_game_deletion deletion_scenario_db "abc123" 1).2 "abc123" 2).2.eliminations
      = deletion_scenario_db.eliminations := by
  exact ⟨rfl, rfl, rfl, rfl, rfl, rfl⟩

/-! ## Claim C6: the deletion reference is reversible and injective -/

theorem alphabet_indexOf_getD :
    ∀ i < 62, hashidsAlphabet.indexOf (hashidsAlphabet.getD i 'a') = i := by
  decide

theorem alphabet_getD_ne_guard :
    ∀ i < 62, ((hashidsAlphabet.getD i 'a') == '*') = false := by
  decide

theorem charDigit_digitChar (σ d : Nat) (hd : d < 62) :
    charDigit σ (digitChar σ d) = d := by
  unfold charDigit digitChar
  rw [alphabet_indexOf_getD ((d + σ) % 62) (Nat.mod_lt _ (by norm_num))]
  omega

theorem digitChar_ne_guard (σ d : Nat) : (digitChar σ d == '*') = false := by
  unfold digitChar
  exact alphabet_getD_ne_guard ((d + σ) % 62) (Nat.mod_lt _ (by norm_num))

theorem dropWhile_replicate_append (k : Nat) (l : List Char)
    (h : ∀ c ∈ l, (c == '*') = false) :
    List.dropWhile (fun c => c == '*') (List.replicate k '*' ++ l) = l := by
  induction k with
  | zero =>
    cases l with
    | nil => rfl
    | cons c t =>
      have hc := h c (by simp)
      simp [List.dropWhile_cons, hc]
  | succ k ih =>
    simpa [List.replicate_succ, List.dropWhile_cons] using ih

theorem toBase62Aux_eq_digits (fuel : Nat) :
    ∀ n ≤ fuel, toBase62Aux fuel n = Nat.digits 62 n := by
  induction fuel with
  | zero =>
    intro n hn
    have : n = 0 := Nat.le_zero.mp hn
    subst this
    simp [toBase62Aux]
  | succ fuel ih =>
    intro n hn
    cases n with
    | zero => simp [toBase62Aux]
    | succ m =>
      have hdiv : (m + 1) / 62 ≤ fuel := by
        have := Nat.div_lt_self (Nat.succ_pos m) (by norm_num : 1 < 62)
        omega
      rw [show toBase62Aux (fuel + 1) (m + 1)
            = ((m + 1) % 62) :: toBase62Aux fuel ((m + 1) / 62) from rfl,
        ih ((m + 1) / 62) hdiv,
        ← Nat.digits_def' (by norm_num : 1 < 62) (Nat.succ_pos m)]

theorem ofDigits_toBase62 (n : Nat) : Nat.ofDigits 62 (toBase62 n) = n := by
  rw [toBase62, toBase62Aux_eq_digits n n le_rfl, Nat.ofDigits_digits]

theorem toBase62_lt (n : Nat) : ∀ d ∈ toBase62 n, d < 62 := by
  intro d hd
  rw [toBase62, toBase62Aux_eq_digits n n le_rfl] at hd
  exact Nat.digits_lt_base (by norm_num) hd

theorem map_charDigit_digitChar (σ : Nat) (ds : List Nat)
    (h : ∀ d ∈ ds, d < 62) :
    (ds.map (digitChar σ)).map (charDigit σ) = ds := by
  induction ds with
  | nil => rfl
  | cons d rest ih =>
    simp only [List.map_cons]
    rw [charDigit_digitChar σ d (h d (by simp)),
      ih (fun d' hd' => h d' (by simp [hd']))]

theorem decode_encode_chars (salt : List Char) (n : Nat) :
    hashids_decode_chars salt (hashids_encode_chars salt n) = n := by
  unfold hashids_encode_chars hashids_decode_chars
  simp only []
  rw [dropWhile_replicate_append]
  · rw [List.map_reverse, map_charDigit_digitChar _ _ (toBase62_lt n),
      List.reverse_reverse, ofDigits_toBase62]
  · intro c hc
    rw [List.mem_reverse] at hc
    obtain ⟨d, hd, rfl⟩ := List.mem_map.mp hc
    exact digitChar_ne_guard _ _

/-- C6: the deletion-reference generation is deterministic and reversible —
decoding an encoded game identity recovers it, and the encoding is injective
on game identities for every salt, so distinct committed games always get
distinct references. -/
theorem hashids_reference_injective (salt : List Char) (n : Nat) :
    hashids_decode salt (hashids_encode salt n) = n ∧
    ∀ m, hashids_encode salt n = hashids_encode salt m → n = m := by
  have hde : ∀ k, hashids_decode salt (hashids_encode salt k) = k := by
    intro k
    exact decode_encode_chars salt k
  refine ⟨hde n, ?_⟩
  intro m h
  rw [← hde n, h, hde m]

/-- Witness for C6 at a concrete salt and identity. -/
theorem hashids_reference_injective_witness :
    hashids_decode ['s'] (hashids_encode ['s'] 42) = 42 ∧ (42 : Nat) = 42 :=
  ⟨(hashids_reference_injective ['s'] 42).1,
   (hashids_reference_injective ['s'] 42).2 42 rfl⟩

/-! ## Claim C10: the stats invariant -/

theorem update_from_game_inv (s : PlayerStats)
    (h : s.wins + s.losses + s.draws = s.games_played) (o : GameOutcome)
    (e : Nat) :
    (update_from_game s o e).wins + (update_from_game s o e).losses
      + (update_from_game s o e).draws = (update_from_game s o e).games_played := by
  cases o <;> simp [update_from_game] <;> omega

theorem foldl_update_from_game_inv {α : Type} (l : List α)
    (fo : α → GameOutcome) (fe : α → Nat) (init : PlayerStats)
    (h : init.wins + init.losses + init.draws = init.games_played) :
    (l.foldl (fun s r => update_from_game s (fo r) (fe r)) init).wins
      + (l.foldl (fun s r => update_from_game s (fo r) (fe r)) init).losses
      + (l.foldl (fun s r => update_from_game s (fo r) (fe r)) init).draws
      = (l.foldl (fun s r => update_from_game s (fo r) (fe r)) init).games_played := by
  induction l generalizing init with
  | nil => simpa using h
  | cons r rest ih =>
    simp only [List.foldl_cons]
    exact ih _ (update_from_game_inv init h (fo r) (fe r))

/-- C10: every `PlayerStats` value the statistics derivation returns — the
fold of `update_from_game` over the player's result rows starting from
zeroed stats — satisfies wins + losses + draws = games_played. -/
theorem get_player_stats_invariant (db : DBState) (telegram_id pod_id : Int)
    (since_date : Option Int) (s : PlayerStats)
    (h : get_player_stats db telegram_id pod_id since_date = some s) :
    s.wins + s.losses + s.draws = s.games_played := by
  unfold get_player_stats at h
  cases hf : findPodPlayer db pod_id telegram_id with
  | none =>
    rw [hf] at h
    cases h
  | some player =>
    rw [hf] at h
    simp only [Option.some.injEq] at h
    rw [← h]
    exact foldl_update_from_game_inv _ _ _ _ rfl

/-- Witness for C10: the stats of participant 1 in the deletion fixture. -/
theorem get_player_stats_invariant_witness :
    get_player_stats deletion_scenario_db 1 1 none
      = some ⟨1, "A", 1, 0, 0, 1, 1⟩ ∧ (1 + 0 + 0 : Nat) = 1 :=
  ⟨rfl, get_player_stats_invariant deletion_scenario_db 1 1 none
    ⟨1, "A", 1, 0, 0, 1, 1⟩ rfl⟩

end EdhBot
